import Mathlib

/-!
Verification of the ATR mean-reversion backtest script (`backtest_xauusd_atr.py`).

The script defines, on top of the `backtesting` library:
  * a data loader `load_xauusd_data` whose cleaning step is
    `df.dropna()` followed by `df = df[df > 0]`;
  * an indicator stage (`init`): a `kc_period`-rolling mean of closes
    (`kc_middle`), an ATR (`calc_atr`: rolling mean of the true range over
    `atr_period`), and the channel bands `kc_upper`/`kc_lower`;
  * a per-bar policy (`next`): on no open position, a channel-breach plus
    reversal-candle entry with ATR-based bracket levels and risk-based sizing
    `max(int(risk_amount / risk_per_unit), 1)`.

We shallow-embed these parts over exact rationals.  A pandas/numpy NaN
(missing rolling value, masked cell) is modelled as `Option.none`; every
arithmetic result that depends on a NaN is itself `none`, mirroring NaN
propagation through the vectorised indicator expressions.
-/

set_option maxRecDepth 8000

namespace XAU

/-- One OHLC bar (a row of the frame handed to the strategy). -/
structure Bar where
  Open : ℚ
  High : ℚ
  Low : ℚ
  Close : ℚ
deriving DecidableEq

/-- Strategy parameters, with the class-attribute defaults of
`ATRMeanReversion` (lines 107-112 of the script). -/
structure Params where
  kc_period : ℕ := 20
  kc_multiplier : ℚ := 3/2
  atr_period : ℕ := 14
  risk_per_trade : ℚ := 1/50
  tp_multiplier : ℚ := 3/2
  sl_multiplier : ℚ := 1
deriving DecidableEq

/-- Collect a list of optional values; `none` as soon as one entry is `none`.
This is how a NaN inside a rolling window poisons the window's mean. -/
def optList : List (Option ℚ) → Option (List ℚ)
  | [] => some []
  | none :: _ => none
  | some x :: rest => (optList rest).map (fun xs => x :: xs)

/-- `pd.Series.rolling(window=period).mean()` at position `i`: defined iff the
window is full (`period ≤ i + 1`) and every entry in the window is defined, in
which case it is the arithmetic mean of the window. -/
def rollingMean (f : ℕ → Option ℚ) (period i : ℕ) : Option ℚ :=
  if period ≤ i + 1 then
    (optList ((List.range period).map (fun j => f (i + 1 - period + j)))).map
      (fun xs => xs.sum / (period : ℚ))
  else none

/-- The close series of the bar list (no missing entries inside range). -/
def closeAt (bars : List Bar) (i : ℕ) : Option ℚ :=
  (bars.get? i).map Bar.Close

/-- True range per bar, from `calc_atr` (lines 127-131): `tr1 = high - low`,
`tr2 = |high - prev_close|`, `tr3 = |low - prev_close|`, combined with
`DataFrame.max(axis=1)`.  At index 0 the shifted close is NaN, and pandas'
row-wise max skips NaN, so the true range degenerates to `high - low`. -/
def trueRange (bars : List Bar) : ℕ → Option ℚ
  | 0 => (bars.get? 0).map (fun b => b.High - b.Low)
  | (i + 1) =>
    match bars.get? (i + 1), bars.get? i with
    | some b, some prev =>
        some (max (b.High - b.Low) (max |b.High - prev.Close| |b.Low - prev.Close|))
    | _, _ => none

/-- `kc_middle` (line 119): rolling mean of closes over `kc_period`. -/
def kc_middle (P : Params) (bars : List Bar) (i : ℕ) : Option ℚ :=
  rollingMean (closeAt bars) P.kc_period i

/-- `atr` (lines 122-135): rolling mean of the true range over `atr_period`. -/
def atr (P : Params) (bars : List Bar) (i : ℕ) : Option ℚ :=
  rollingMean (trueRange bars) P.atr_period i

/-- `kc_upper` (line 136): `kc_middle + atr * kc_multiplier`, elementwise; NaN
in either operand makes the sum NaN. -/
def kc_upper (P : Params) (bars : List Bar) (i : ℕ) : Option ℚ :=
  match kc_middle P bars i, atr P bars i with
  | some m, some a => some (m + a * P.kc_multiplier)
  | _, _ => none

/-- `kc_lower` (line 137): `kc_middle - atr * kc_multiplier`, elementwise. -/
def kc_lower (P : Params) (bars : List Bar) (i : ℕ) : Option ℚ :=
  match kc_middle P bars i, atr P bars i with
  | some m, some a => some (m - a * P.kc_multiplier)
  | _, _ => none

/-- Python's `int(...)` on a float/rational: truncation toward zero. -/
def pyInt (q : ℚ) : ℤ :=
  if 0 ≤ q then ⌊q⌋ else -⌊-q⌋

/-- `position_size = max(int(risk_amount / risk_per_unit), 1)`
(lines 177 and 201). -/
def positionSize (risk_amount risk_per_unit : ℚ) : ℤ :=
  max (pyInt (risk_amount / risk_per_unit)) 1

/-- Side of an order intent. -/
inductive Direction
  | long
  | short
deriving DecidableEq

/-- The order intent submitted via `self.buy(...)` / `self.sell(...)`,
together with the bracket levels the strategy records. -/
structure OrderIntent where
  dir : Direction
  size : ℤ
  entry_price : ℚ
  stop_loss : ℚ
  take_profit : ℚ
deriving DecidableEq

/-- One step of `ATRMeanReversion.next` (lines 144-210), as a pure function of
the bar history, the current bar index, whether a position is open, and the
current equity.  It returns the order intent submitted on this bar, if any.

Control flow mirrors the source exactly: the NaN guards on `kc_middle[-1]`
(line 152) and on the current ATR (line 157) return early; the long branch
(line 165) is an `if` and the short branch (line 189) an `elif`, so the long
test has priority; inside each branch the reversal-candle test and the
`risk_per_unit > 0` guard protect the order submission.  With `kc_middle` and
`atr` both defined, `kc_lower[-1]` is `m - a * kc_multiplier` and
`kc_upper[-1]` is `m + a * kc_multiplier` (see `kc_lower`/`kc_upper`), which
we inline. -/
def next (P : Params) (bars : List Bar) (i : ℕ) (positionOpen : Bool)
    (equity : ℚ) : Option OrderIntent :=
  match bars.get? i with
  | none => none
  | some bar =>
    match kc_middle P bars i with
    | none => none
    | some m =>
      match atr P bars i with
      | none => none
      | some a =>
        if positionOpen = false ∧
            (bar.Low < m - a * P.kc_multiplier ∨ bar.Close < m - a * P.kc_multiplier) then
          if bar.Close > bar.Open then
            if 0 < |bar.Close - (bar.Close - a * P.sl_multiplier)| then
              some { dir := Direction.long,
                     size := positionSize (equity * P.risk_per_trade)
                              |bar.Close - (bar.Close - a * P.sl_multiplier)|,
                     entry_price := bar.Close,
                     stop_loss := bar.Close - a * P.sl_multiplier,
                     take_profit := bar.Close + a * P.tp_multiplier }
            else none
          else none
        else
          if positionOpen = false ∧
              (bar.High > m + a * P.kc_multiplier ∨ bar.Close > m + a * P.kc_multiplier) then
            if bar.Close < bar.Open then
              if 0 < |bar.Close + a * P.sl_multiplier - bar.Close| then
                some { dir := Direction.short,
                       size := positionSize (equity * P.risk_per_trade)
                                |bar.Close + a * P.sl_multiplier - bar.Close|,
                       entry_price := bar.Close,
                       stop_loss := bar.Close + a * P.sl_multiplier,
                       take_profit := bar.Close - a * P.tp_multiplier }
              else none
            else none
          else none

/-- A raw row of the loaded frame, after column normalisation: each cell is
present (`some`) or missing/NaN (`none`). -/
structure Row where
  Open : Option ℚ
  High : Option ℚ
  Low : Option ℚ
  Close : Option ℚ
  Volume : Option ℚ
deriving DecidableEq

/-- A row survives `df.dropna()` iff every cell is present. -/
def rowComplete (r : Row) : Bool :=
  r.Open.isSome && r.High.isSome && r.Low.isSome && r.Close.isSome && r.Volume.isSome

/-- One cell of `df[df > 0]`: a boolean-frame mask keeps a cell iff its value
is positive and otherwise replaces it with NaN — it does not drop the row. -/
def maskPositive : Option ℚ → Option ℚ
  | none => none
  | some x => if 0 < x then some x else none

/-- `df[df > 0]` applied to one row: every cell is masked independently. -/
def maskRow (r : Row) : Row :=
  { Open := maskPositive r.Open, High := maskPositive r.High,
    Low := maskPositive r.Low, Close := maskPositive r.Close,
    Volume := maskPositive r.Volume }

/-- The cleaning step of `load_xauusd_data` (lines 73-74):
`df = df[...].dropna()` then `df = df[df > 0]`. -/
def cleanData (rows : List Row) : List Row :=
  (rows.filter rowComplete).map maskRow

/-! ### Concrete fixtures used for witness evaluations -/

/-- Small parameter set (periods of 1, narrow channel) for one-bar scenarios. -/
def Pw : Params :=
  { kc_period := 1, kc_multiplier := 1/10, atr_period := 1 }

/-- A bullish bar whose low pokes below the lower channel under `Pw`. -/
def barsLong : List Bar := [{ Open := 10, High := 12, Low := 8, Close := 11 }]

/-- A bearish bar whose high pokes above the upper channel under `Pw`,
without breaching the lower channel. -/
def barsShort : List Bar := [{ Open := 11, High := 13, Low := 10, Close := 10 }]

/-- A bar with `High = Low` (zero true range), giving a degenerate stop. -/
def barsDeg : List Bar := [{ Open := 10, High := 11, Low := 11, Close := 12 }]

/-- Default parameters with a two-bar ATR window. -/
def P2 : Params := { atr_period := 2 }

/-- Two bars for exercising the true-range recurrence. -/
def barsTwo : List Bar :=
  [{ Open := 1, High := 3, Low := 1, Close := 2 },
   { Open := 2, High := 4, Low := 1, Close := 3 }]

/-! ### Helper lemmas -/

theorem get?_isSome_iff {α : Type} (l : List α) (n : ℕ) :
    (l.get? n).isSome ↔ n < l.length := by
  rw [← not_le, ← List.get?_eq_none]
  cases l.get? n <;> simp

theorem optList_isSome_iff (l : List (Option ℚ)) :
    (optList l).isSome ↔ ∀ x ∈ l, x.isSome := by
  induction l with
  | nil => simp [optList]
  | cons hd tl ih =>
    cases hd with
    | none => simp [optList]
    | some x => simp [optList, ih]

theorem optList_eq_some_map (l : List (Option ℚ)) (h : ∀ x ∈ l, x.isSome) :
    optList l = some (l.map (fun x => x.getD 0)) := by
  induction l with
  | nil => simp [optList]
  | cons hd tl ih =>
    cases hd with
    | none => simpa using h none (by simp)
    | some x =>
      rw [optList, ih (fun y hy => h y (List.mem_cons_of_mem _ hy))]
      simp

theorem mem_of_optList (l : List (Option ℚ)) (xs : List ℚ) (h : optList l = some xs)
    (x : ℚ) (hx : x ∈ xs) : some x ∈ l := by
  induction l generalizing xs with
  | nil =>
    rw [optList] at h
    obtain rfl := Option.some.inj h
    simp at hx
  | cons hd tl ih =>
    cases hd with
    | none => rw [optList] at h; cases h
    | some y =>
      rw [optList] at h
      cases ho : optList tl with
      | none => rw [ho] at h; cases h
      | some ys =>
        rw [ho] at h
        obtain rfl := Option.some.inj h
        rcases List.mem_cons.mp hx with rfl | hx
        · exact List.mem_cons_self _ _
        · exact List.mem_cons_of_mem _ (ih ys ho hx)

theorem rollingMean_isSome_iff (f : ℕ → Option ℚ) (period i : ℕ) :
    (rollingMean f period i).isSome ↔
      period ≤ i + 1 ∧ ∀ j ∈ List.range period, (f (i + 1 - period + j)).isSome := by
  rw [rollingMean]
  split_ifs with hle
  · simp only [Option.isSome_map', optList_isSome_iff, hle, true_and]
    constructor
    · intro h j hj
      exact h _ (List.mem_map_of_mem _ hj)
    · intro h x hx
      obtain ⟨j, hj, rfl⟩ := List.mem_map.mp hx
      exact h j hj
  · simp [hle]

theorem rollingMean_eq_mean (f : ℕ → Option ℚ) (period i : ℕ) (hle : period ≤ i + 1)
    (hall : ∀ j ∈ List.range period, (f (i + 1 - period + j)).isSome) :
    rollingMean f period i =
      some (((List.range period).map (fun j => (f (i + 1 - period + j)).getD 0)).sum
        / (period : ℚ)) := by
  rw [rollingMean, if_pos hle, optList_eq_some_map]
  · simp [List.map_map, Function.comp_def]
  · intro x hx
    obtain ⟨j, hj, rfl⟩ := List.mem_map.mp hx
    exact hall j hj

theorem trueRange_isSome_iff (bars : List Bar) (j : ℕ) :
    (trueRange bars j).isSome ↔ j < bars.length := by
  cases j with
  | zero =>
    rw [trueRange, Option.isSome_map']
    exact get?_isSome_iff bars 0
  | succ k =>
    rw [trueRange]
    cases hb : bars.get? (k + 1) with
    | none =>
      have hlen : bars.length ≤ k + 1 := List.get?_eq_none.mp hb
      simp [not_lt.mpr hlen]
    | some b =>
      have hlen : k + 1 < bars.length := (get?_isSome_iff bars (k + 1)).mp (by rw [hb]; rfl)
      cases hp : bars.get? k with
      | none =>
        have := List.get?_eq_none.mp hp
        omega
      | some prev => simp [hlen]

theorem trueRange_nonneg (bars : List Bar) (hvalid : ∀ b ∈ bars, b.Low ≤ b.High)
    (j : ℕ) (t : ℚ) (h : trueRange bars j = some t) : 0 ≤ t := by
  cases j with
  | zero =>
    rw [trueRange] at h
    cases hb : bars.get? 0 with
    | none => rw [hb] at h; cases h
    | some b =>
      rw [hb, Option.map_some'] at h
      obtain rfl := Option.some.inj h
      have := hvalid b (List.get?_mem hb)
      show (0:ℚ) ≤ b.High - b.Low
      linarith
  | succ k =>
    rw [trueRange] at h
    cases hb : bars.get? (k + 1) with
    | none => rw [hb] at h; cases h
    | some b =>
      cases hp : bars.get? k with
      | none => rw [hb, hp] at h; cases h
      | some prev =>
        rw [hb, hp] at h
        obtain rfl := Option.some.inj h
        have hbl := hvalid b (List.get?_mem hb)
        have h1 : (0:ℚ) ≤ b.High - b.Low := by linarith
        exact le_trans h1 (le_max_left _ _)

theorem atr_nonneg (P : Params) (bars : List Bar) (i : ℕ) (a : ℚ)
    (hvalid : ∀ b ∈ bars, b.Low ≤ b.High) (ha : atr P bars i = some a) : 0 ≤ a := by
  rw [atr, rollingMean] at ha
  split_ifs at ha with hle
  · cases ho : optList ((List.range P.atr_period).map
        (fun j => trueRange bars (i + 1 - P.atr_period + j))) with
    | none => rw [ho] at ha; cases ha
    | some xs =>
      rw [ho] at ha
      obtain rfl := Option.some.inj ha
      apply div_nonneg _ (Nat.cast_nonneg _)
      apply List.sum_nonneg
      intro x hx
      have hmem := mem_of_optList _ xs ho x hx
      obtain ⟨j, _, hj⟩ := List.mem_map.mp hmem
      exact trueRange_nonneg bars hvalid _ x hj

theorem max_pyInt_one (q : ℚ) : max (pyInt q) 1 = max ⌊q⌋ 1 := by
  rw [pyInt]
  split_ifs with h
  · rfl
  · push_neg at h
    have h1 : ⌊q⌋ ≤ 0 := Int.floor_nonpos h.le
    have h2 : (0:ℤ) ≤ ⌊-q⌋ := Int.le_floor.mpr (by push_cast; linarith)
    rw [max_eq_right (by omega : -⌊-q⌋ ≤ 1), max_eq_right (by omega : ⌊q⌋ ≤ 1)]

/-! ### Claim theorems -/

/-- C3: For every bar at which a position is currently open, the per-bar
policy step emits no order intent at all: both entry branches of `next` are
guarded by `not self.position`, so the step is a no-op with respect to
orders and the engine keeps at most one position open. -/
theorem policy_noop_in_position (P : Params) (bars : List Bar) (i : ℕ) (equity : ℚ) :
    next P bars i true equity = none := by
  unfold next
  cases hb : bars.get? i with
  | none => rfl
  | some bar =>
    cases hm : kc_middle P bars i with
    | none => rfl
    | some m =>
      cases ha : atr P bars i with
      | none => rfl
      | some a =>
        dsimp only
        split_ifs <;> simp_all

/-- C6: If the moving average or the ATR is undefined at the current bar
(warm-up), the per-bar policy step returns without emitting any order
intent; the guards on `kc_middle[-1]` (line 152) and the current ATR
(line 157) check undefinedness explicitly before any decision arithmetic,
and no exception can arise since `next` is a total function. -/
theorem warmup_bar_emits_nothing (P : Params) (bars : List Bar) (i : ℕ)
    (positionOpen : Bool) (equity : ℚ)
    (h : kc_middle P bars i = none ∨ atr P bars i = none) :
    next P bars i positionOpen equity = none := by
  unfold next
  cases hb : bars.get? i with
  | none => rfl
  | some bar =>
    cases hm : kc_middle P bars i with
    | none => rfl
    | some m =>
      cases ha : atr P bars i with
      | none => rfl
      | some a =>
        rcases h with h | h
        · rw [hm] at h; cases h
        · rw [ha] at h; cases h

/-- Witness for C6: with the default 20-bar moving-average window, the
moving average is undefined on a one-bar history and the step emits nothing. -/
theorem warmup_bar_emits_nothing_witness :
    next {} barsLong 0 false 100000 = none :=
  warmup_bar_emits_nothing {} barsLong 0 false 100000
    (Or.inl (by with_unfolding_all decide))

/-- C1: On a bar with no open position, defined moving average `m` and ATR
`a`, a low or close strictly below the lower channel, a bullish close
(`close > open`) and a strictly positive stop distance `sl_multiplier * a`,
the policy emits exactly one long order intent: entry at the close,
stop-loss `close - sl_multiplier * a`, take-profit
`close + tp_multiplier * a`, with the risk-based size. -/
theorem long_entry_emits_intent (P : Params) (bars : List Bar) (i : ℕ)
    (equity m a : ℚ) (bar : Bar)
    (hbar : bars.get? i = some bar)
    (hm : kc_middle P bars i = some m)
    (ha : atr P bars i = some a)
    (hbreach : bar.Low < m - a * P.kc_multiplier ∨ bar.Close < m - a * P.kc_multiplier)
    (hbull : bar.Close > bar.Open)
    (hsl : 0 < P.sl_multiplier * a) :
    next P bars i false equity =
      some { dir := Direction.long,
             size := positionSize (equity * P.risk_per_trade) (P.sl_multiplier * a),
             entry_price := bar.Close,
             stop_loss := bar.Close - a * P.sl_multiplier,
             take_profit := bar.Close + a * P.tp_multiplier } := by
  unfold next
  rw [hbar]
  dsimp only
  rw [hm]
  dsimp only
  rw [ha]
  dsimp only
  rw [show bar.Close - (bar.Close - a * P.sl_multiplier) = P.sl_multiplier * a from by ring,
    abs_of_pos hsl]
  have hc1 : (false = false) ∧
      (bar.Low < m - a * P.kc_multiplier ∨ bar.Close < m - a * P.kc_multiplier) :=
    ⟨rfl, hbreach⟩
  rw [if_pos hc1, if_pos hbull, if_pos hsl]

/-- Witness for C1: a concrete bullish breach bar triggers the long intent
with entry 11, stop 7, target 17 and size 500. -/
theorem long_entry_emits_intent_witness :
    next Pw barsLong 0 false 100000 =
      some { dir := Direction.long, size := 500, entry_price := 11,
             stop_loss := 7, take_profit := 17 } := by
  have h := long_entry_emits_intent Pw barsLong 0 100000 11 4
    { Open := 10, High := 12, Low := 8, Close := 11 }
    rfl (by with_unfolding_all decide) (by with_unfolding_all decide)
    (Or.inl (by with_unfolding_all decide)) (by with_unfolding_all decide)
    (by with_unfolding_all decide)
  exact h.trans (by with_unfolding_all decide)

/-- C2: On a bar with no open position, defined moving average `m` and ATR
`a`, a high or close strictly above the upper channel, a bearish close
(`close < open`) and a strictly positive stop distance `sl_multiplier * a`:
if the long-side breach test does not also hold, the policy emits exactly
one short order intent (entry at the close, stop-loss
`close + sl_multiplier * a`, take-profit `close - tp_multiplier * a`);
if the long-side breach test does hold simultaneously, the long branch
takes priority (the short branch is never evaluated), and since the close
is bearish nothing is emitted. -/
theorem short_entry_emits_intent (P : Params) (bars : List Bar) (i : ℕ)
    (equity m a : ℚ) (bar : Bar)
    (hbar : bars.get? i = some bar)
    (hm : kc_middle P bars i = some m)
    (ha : atr P bars i = some a)
    (hbreach : bar.High > m + a * P.kc_multiplier ∨ bar.Close > m + a * P.kc_multiplier)
    (hbear : bar.Close < bar.Open)
    (hsl : 0 < P.sl_multiplier * a) :
    (¬(bar.Low < m - a * P.kc_multiplier ∨ bar.Close < m - a * P.kc_multiplier) →
      next P bars i false equity =
        some { dir := Direction.short,
               size := positionSize (equity * P.risk_per_trade) (P.sl_multiplier * a),
               entry_price := bar.Close,
               stop_loss := bar.Close + a * P.sl_multiplier,
               take_profit := bar.Close - a * P.tp_multiplier }) ∧
    ((bar.Low < m - a * P.kc_multiplier ∨ bar.Close < m - a * P.kc_multiplier) →
      next P bars i false equity = none) := by
  constructor
  · intro hlb
    unfold next
    rw [hbar]
    dsimp only
    rw [hm]
    dsimp only
    rw [ha]
    dsimp only
    rw [show bar.Close + a * P.sl_multiplier - bar.Close = P.sl_multiplier * a from by ring,
      abs_of_pos hsl]
    have hc1 : ¬((false = false) ∧
        (bar.Low < m - a * P.kc_multiplier ∨ bar.Close < m - a * P.kc_multiplier)) :=
      fun hc => hlb hc.2
    have hc2 : (false = false) ∧
        (bar.High > m + a * P.kc_multiplier ∨ bar.Close > m + a * P.kc_multiplier) :=
      ⟨rfl, hbreach⟩
    rw [if_neg hc1, if_pos hc2, if_pos hbear, if_pos hsl]
  · intro hlong
    unfold next
    rw [hbar]
    dsimp only
    rw [hm]
    dsimp only
    rw [ha]
    dsimp only
    have hc1 : (false = false) ∧
        (bar.Low < m - a * P.kc_multiplier ∨ bar.Close < m - a * P.kc_multiplier) :=
      ⟨rfl, hlong⟩
    rw [if_pos hc1, if_neg (asymm hbear)]

/-- Witness for C2: a concrete bearish bar above the upper channel (with no
lower-channel breach) triggers the short intent with entry 10, stop 13,
target 11/2 and size 666. -/
theorem short_entry_emits_intent_witness :
    next Pw barsShort 0 false 100000 =
      some { dir := Direction.short, size := 666, entry_price := 10,
             stop_loss := 13, take_profit := 11/2 } := by
  have h := short_entry_emits_intent Pw barsShort 0 100000 10 3
    { Open := 11, High := 13, Low := 10, Close := 10 }
    rfl (by with_unfolding_all decide) (by with_unfolding_all decide)
    (Or.inl (by with_unfolding_all decide)) (by with_unfolding_all decide)
    (by with_unfolding_all decide)
  exact (h.1 (by with_unfolding_all decide)).trans (by with_unfolding_all decide)

/-- C5: With no open position and defined indicators, whenever the stop
distance `a * sl_multiplier` is zero (degenerate stop), the
`risk_per_unit > 0` guards (lines 176 and 200) reject the intent in both
branches: no order is submitted on that bar and the step completes
normally, returning `none` — in particular on every bar on which the entry
conditions hold. -/
theorem degenerate_stop_rejected (P : Params) (bars : List Bar) (i : ℕ)
    (equity m a : ℚ)
    (hm : kc_middle P bars i = some m)
    (ha : atr P bars i = some a)
    (hdeg : a * P.sl_multiplier = 0) :
    next P bars i false equity = none := by
  unfold next
  cases hb : bars.get? i with
  | none => rfl
  | some bar =>
    dsimp only
    rw [hm]
    dsimp only
    rw [ha]
    dsimp only
    rw [show bar.Close - (bar.Close - a * P.sl_multiplier) = a * P.sl_multiplier from by ring,
      show bar.Close + a * P.sl_multiplier - bar.Close = a * P.sl_multiplier from by ring,
      hdeg, abs_zero]
    split_ifs <;> first
      | rfl
      | exact absurd (by assumption : (0:ℚ) < 0) (lt_irrefl (0:ℚ))

/-- Witness for C5: a bar with `High = Low` gives ATR 0; the entry
conditions hold (low below the lower channel, bullish close) yet no order
is submitted. -/
theorem degenerate_stop_rejected_witness :
    next Pw barsDeg 0 false 100000 = none :=
  degenerate_stop_rejected Pw barsDeg 0 100000 12 0
    (by with_unfolding_all decide) (by with_unfolding_all decide)
    (by with_unfolding_all decide)

/-- C4: Every order intent the policy submits has strictly positive stop
distance and size `max(floor(risk_amount / |entry - stop|), 1)` with
`risk_amount = equity * risk_per_trade`: Python's `int` truncation agrees
with the floor under the `max(..., 1)` flooring rule.  In the scenario
`risk_per_trade = 0.02`, `equity = 100000`, stop distance 2, the computed
size before flooring is 1000. -/
theorem submitted_size_formula (P : Params) (bars : List Bar) (i : ℕ)
    (positionOpen : Bool) (equity : ℚ) (intent : OrderIntent)
    (h : next P bars i positionOpen equity = some intent) :
    0 < |intent.entry_price - intent.stop_loss| ∧
    intent.size =
      max ⌊equity * P.risk_per_trade / |intent.entry_price - intent.stop_loss|⌋ 1 ∧
    (100000 : ℚ) * (2 / 100) / 2 = 1000 := by
  unfold next at h
  split at h
  · cases h
  · split at h
    · cases h
    · split at h
      · cases h
      · split_ifs at h with c1 c2 c3 c4 c5 c6 <;> cases h
        · refine ⟨c3, ?_, by norm_num⟩
          show positionSize _ _ = _
          rw [positionSize, max_pyInt_one]
        · refine ⟨?_, ?_, by norm_num⟩
          · show (0:ℚ) < |_ - _|
            rw [abs_sub_comm]
            exact c6
          · show positionSize _ _ = _
            rw [positionSize, max_pyInt_one, abs_sub_comm]

set_option maxHeartbeats 1000000 in
/-- Witness for C4 at the concrete long entry: stop distance 4, size
`max(floor(2000 / 4), 1) = 500`. -/
theorem submitted_size_formula_witness :
    (0:ℚ) < |(11:ℚ) - 7| ∧
    (500:ℤ) = max ⌊(100000:ℚ) * Pw.risk_per_trade / |(11:ℚ) - 7|⌋ 1 ∧
    (100000 : ℚ) * (2 / 100) / 2 = 1000 := by
  have h : next Pw barsLong 0 false 100000 =
      some { dir := Direction.long, size := 500, entry_price := 11,
             stop_loss := 7, take_profit := 17 } := by
    with_unfolding_all decide
  have h2 := submitted_size_formula Pw barsLong 0 false 100000 _ h
  exact ⟨h2.1, h2.2.1, h2.2.2⟩

/-- C7: For every index `i ≥ 1` (with bars present at `i` and `i-1`) the
true range is `max(high - low, |high - prev_close|, |low - prev_close|)`;
the ATR at `i` is defined exactly when at least `atr_period` true-range
values exist ending at `i` (the window is full and the bars exist), and it
then equals the arithmetic mean of the last `atr_period` true-range
values. -/
theorem atr_definition (P : Params) (bars : List Bar) (i : ℕ) (hp : 0 < P.atr_period) :
    (∀ b prev, bars.get? i = some b → bars.get? (i - 1) = some prev → 1 ≤ i →
      trueRange bars i = some (max (b.High - b.Low)
        (max |b.High - prev.Close| |b.Low - prev.Close|))) ∧
    ((atr P bars i).isSome ↔ P.atr_period ≤ i + 1 ∧ i < bars.length) ∧
    (P.atr_period ≤ i + 1 → i < bars.length →
      atr P bars i = some (((List.range P.atr_period).map
        (fun j => (trueRange bars (i + 1 - P.atr_period + j)).getD 0)).sum
          / (P.atr_period : ℚ))) := by
  refine ⟨?_, ?_, ?_⟩
  · intro b prev hb hprev hi
    cases i with
    | zero => omega
    | succ k =>
      rw [trueRange]
      rw [show k + 1 - 1 = k from rfl] at hprev
      rw [hb, hprev]
  · rw [atr, rollingMean_isSome_iff]
    constructor
    · rintro ⟨hle, hall⟩
      refine ⟨hle, ?_⟩
      have hmem : P.atr_period - 1 ∈ List.range P.atr_period := List.mem_range.mpr (by omega)
      have hsome := hall _ hmem
      rw [trueRange_isSome_iff] at hsome
      omega
    · rintro ⟨hle, hlen⟩
      refine ⟨hle, fun j hj => ?_⟩
      rw [trueRange_isSome_iff]
      have := List.mem_range.mp hj
      omega
  · intro hle hlen
    rw [atr]
    exact rollingMean_eq_mean _ _ _ hle (fun j hj => by
      rw [trueRange_isSome_iff]
      have := List.mem_range.mp hj
      omega)

/-- Witness for C7 on a two-bar history with a 2-bar ATR window: the true
range at index 1 is `max(3, max(2, 1)) = 3` and the ATR at index 1 is the
mean `(2 + 3) / 2`. -/
theorem atr_definition_witness :
    trueRange barsTwo 1 = some 3 ∧ atr P2 barsTwo 1 = some (5/2) := by
  have h := atr_definition P2 barsTwo 1 (by decide)
  constructor
  · exact (h.1 { Open := 2, High := 4, Low := 1, Close := 3 }
      { Open := 1, High := 3, Low := 1, Close := 2 } rfl rfl (by decide)).trans
      (by with_unfolding_all decide)
  · exact (h.2.2 (by decide) (by decide)).trans (by with_unfolding_all decide)

/-- C8: Wherever both the `kc_period`-rolling moving average of the close
and the ATR are defined, the upper channel is the moving average plus
`kc_multiplier` times the ATR and the lower channel the moving average
minus it; wherever either input is undefined, both channel values are
undefined (NaN propagates through the elementwise band arithmetic). -/
theorem channel_bands (P : Params) (bars : List Bar) (i : ℕ) :
    (∀ m a, kc_middle P bars i = some m → atr P bars i = some a →
      kc_upper P bars i = some (m + a * P.kc_multiplier) ∧
      kc_lower P bars i = some (m - a * P.kc_multiplier)) ∧
    (kc_middle P bars i = none ∨ atr P bars i = none →
      kc_upper P bars i = none ∧ kc_lower P bars i = none) := by
  constructor
  · intro m a hm ha
    rw [kc_upper, kc_lower, hm, ha]
    exact ⟨rfl, rfl⟩
  · intro h
    rw [kc_upper, kc_lower]
    rcases h with h | h
    · rw [h]
      exact ⟨rfl, rfl⟩
    · rw [h]
      cases kc_middle P bars i <;> exact ⟨rfl, rfl⟩

/-- Witness for C8: on the one-bar fixture the bands are
`11 ± 4 * (1/10)`. -/
theorem channel_bands_witness :
    kc_upper Pw barsLong 0 = some (57/5) ∧ kc_lower Pw barsLong 0 = some (53/5) := by
  have h := (channel_bands Pw barsLong 0).1 11 4
    (by with_unfolding_all decide) (by with_unfolding_all decide)
  exact ⟨h.1.trans (by with_unfolding_all decide),
    h.2.trans (by with_unfolding_all decide)⟩

/-- C9 (code bug): the loader's cleaning step is `df.dropna()` followed by
`df = df[df > 0]` (lines 73-74).  Indexing a DataFrame by the boolean frame
`df > 0` does not remove rows: it masks each non-positive cell to NaN and
keeps the row.  So the frame handed to the engine can still contain missing
values, contradicting the comment `Remove zero/negative values` and the
stated contract.  Concretely, for a row whose `Volume` is 0 — exactly what
the loader itself produces for XAUUSD files without a volume column
(line 69) — the cleaned frame keeps the row with `Volume` missing. -/
theorem cleaned_frame_keeps_missing_cell :
    cleanData [{ Open := some 1, High := some 2, Low := some 1,
                 Close := some 2, Volume := some 0 }] =
      [{ Open := some 1, High := some 2, Low := some 1,
         Close := some 2, Volume := none }] := by
  with_unfolding_all decide

/-- C10: Every order intent the policy emits has its bracket strictly on
the correct sides of the entry: long intents have
`stop_loss < entry_price < take_profit` and short intents have
`take_profit < entry_price < stop_loss`, given valid bars
(`Low ≤ High`, which makes the ATR nonnegative) and positive multipliers;
hence a wrong-sided stop-loss rejection is unreachable for this policy. -/
theorem bracket_levels_on_correct_sides (P : Params) (bars : List Bar) (i : ℕ)
    (positionOpen : Bool) (equity : ℚ) (intent : OrderIntent)
    (hvalid : ∀ b ∈ bars, b.Low ≤ b.High)
    (hslm : 0 < P.sl_multiplier) (htpm : 0 < P.tp_multiplier)
    (h : next P bars i positionOpen equity = some intent) :
    (intent.dir = Direction.long →
      intent.stop_loss < intent.entry_price ∧
      intent.entry_price < intent.take_profit) ∧
    (intent.dir = Direction.short →
      intent.take_profit < intent.entry_price ∧
      intent.entry_price < intent.stop_loss) := by
  unfold next at h
  split at h
  · cases h
  next bar hb =>
    split at h
    · cases h
    next m hm =>
      split at h
      · cases h
      next a ha =>
        have ha0 : 0 ≤ a := atr_nonneg P bars i a hvalid ha
        split_ifs at h with c1 c2 c3 c4 c5 c6 <;> cases h
        · rw [show bar.Close - (bar.Close - a * P.sl_multiplier) = a * P.sl_multiplier
            from by ring] at c3
          have hane : a ≠ 0 := by
            intro h0
            rw [h0, zero_mul, abs_zero] at c3
            exact absurd c3 (lt_irrefl 0)
          have hapos : 0 < a := lt_of_le_of_ne ha0 (Ne.symm hane)
          refine ⟨fun _ => ⟨?_, ?_⟩, fun hd => by simp at hd⟩
          · show bar.Close - a * P.sl_multiplier < bar.Close
            have := mul_pos hapos hslm
            linarith
          · show bar.Close < bar.Close + a * P.tp_multiplier
            have := mul_pos hapos htpm
            linarith
        · rw [show bar.Close + a * P.sl_multiplier - bar.Close = a * P.sl_multiplier
            from by ring] at c6
          have hane : a ≠ 0 := by
            intro h0
            rw [h0, zero_mul, abs_zero] at c6
            exact absurd c6 (lt_irrefl 0)
          have hapos : 0 < a := lt_of_le_of_ne ha0 (Ne.symm hane)
          refine ⟨fun hd => by simp at hd, fun _ => ⟨?_, ?_⟩⟩
          · show bar.Close - a * P.tp_multiplier < bar.Close
            have := mul_pos hapos htpm
            linarith
          · show bar.Close < bar.Close + a * P.sl_multiplier
            have := mul_pos hapos hslm
            linarith

/-- Witness for C10 at the concrete long emission: `7 < 11 < 17`. -/
theorem bracket_levels_on_correct_sides_witness :
    (7:ℚ) < 11 ∧ (11:ℚ) < 17 := by
  have h : next Pw barsLong 0 false 100000 =
      some { dir := Direction.long, size := 500, entry_price := 11,
             stop_loss := 7, take_profit := 17 } := by
    with_unfolding_all decide
  have h2 := bracket_levels_on_correct_sides Pw barsLong 0 false 100000 _
    (by with_unfolding_all decide) (by with_unfolding_all decide)
    (by with_unfolding_all decide) h
  exact h2.1 rfl

end XAU
